import Mathlib

/-!
Shallow embedding of `zsnap.py`, a ZFS snapshot lifecycle tool: it creates a
dated snapshot of each requested dataset and prunes snapshots older than a
retention cutoff.  Pure helpers (`parse_snap_name`, `filter_older_snaps`, the
name codec) are translated as Lean functions; the effectful layer
(`run_cmd`, `has_dataset`, `get_all_snaps`, `create_snap`, `remove_snaps`,
`main`) is translated as explicit state passing over an abstract `Host`
oracle, each call returning its value together with the list of external
command events it produced.
-/

/-- Calendar date, modelling Python `datetime.date` as a year/month/day
record of naturals. -/
structure Date where
  year : Nat
  month : Nat
  day : Nat
deriving DecidableEq, Repr

/-- Gregorian leap-year rule, as used by Python `datetime`. -/
def isLeapYear (y : Nat) : Bool :=
  y % 4 == 0 && (y % 100 != 0 || y % 400 == 0)

/-- Number of days in month `m` of year `y` (Gregorian calendar). -/
def daysInMonth (y m : Nat) : Nat :=
  if m == 2 then (if isLeapYear y then 29 else 28)
  else if m == 4 || m == 6 || m == 9 || m == 11 then 30
  else 31

/-- The range of dates representable by Python `datetime.date`
(year 1 to 9999, valid month and day-of-month). -/
def Date.ValidB (d : Date) : Bool :=
  1 ≤ d.year && d.year ≤ 9999 && 1 ≤ d.month && d.month ≤ 12 &&
    1 ≤ d.day && d.day ≤ daysInMonth d.year d.month

/-- Strict comparison of dates, modelling Python `date.__lt__`:
lexicographic on the (year, month, day) triple. -/
def Date.lt (a b : Date) : Bool :=
  decide (a.year < b.year) ||
    (a.year == b.year &&
      (decide (a.month < b.month) ||
        (a.month == b.month && decide (a.day < b.day))))

/-- The previous calendar day (used to model Python date arithmetic:
subtracting a `timedelta` of `n` days is the `n`-fold day predecessor on
valid dates).  At the lower boundary, where Python raises `OverflowError`,
the date is returned unchanged; the modelled runs never reach it. -/
def Date.pred (d : Date) : Date :=
  if 1 < d.day then ⟨d.year, d.month, d.day - 1⟩
  else if 1 < d.month then ⟨d.year, d.month - 1, daysInMonth d.year (d.month - 1)⟩
  else if 1 < d.year then ⟨d.year - 1, 12, 31⟩
  else d

/-- Character of a decimal digit value below 10. -/
def digitChar (k : Nat) : Char := Char.ofNat (48 + k)

/-- Decimal value of a digit character. -/
def digitVal (c : Char) : Nat := c.toNat - 48

/-- Four-digit zero-padded decimal rendering (for the year of `%04d`). -/
def pad4 (n : Nat) : List Char :=
  [digitChar (n / 1000 % 10), digitChar (n / 100 % 10),
    digitChar (n / 10 % 10), digitChar (n % 10)]

/-- Two-digit zero-padded decimal rendering (for month and day of `%02d`). -/
def pad2 (n : Nat) : List Char :=
  [digitChar (n / 10 % 10), digitChar (n % 10)]

/-- Python `date.isoformat()`: the `YYYY-MM-DD` rendering of a date. -/
def Date.isoformat (d : Date) : String :=
  String.mk (pad4 d.year ++ '-' :: (pad2 d.month ++ '-' :: pad2 d.day))

/-- Character-level core of `fromisoformat` below. -/
def fromisoList : List Char → Option Date
  | [y1, y2, y3, y4, c1, m1, m2, c2, d1, d2] =>
    if c1 == '-' && c2 == '-' && y1.isDigit && y2.isDigit && y3.isDigit &&
        y4.isDigit && m1.isDigit && m2.isDigit && d1.isDigit && d2.isDigit then
      let y := 1000 * digitVal y1 + 100 * digitVal y2 + 10 * digitVal y3 + digitVal y4
      let m := 10 * digitVal m1 + digitVal m2
      let d := 10 * digitVal d1 + digitVal d2
      if Date.ValidB ⟨y, m, d⟩ then some ⟨y, m, d⟩ else none
    else none
  | _ => none

/-- Python `date.fromisoformat` restricted to the canonical extended
calendar-date format `YYYY-MM-DD` (the only format this program emits or
expects): ten characters, digits in the date positions, dashes at
positions 5 and 8, and the (year, month, day) triple in the valid range;
any other input is rejected. -/
def fromisoformat (s : String) : Option Date :=
  fromisoList s.data

/-- Split a character list at the first occurrence of `sep`, returning the
part before it (accumulated in reverse in `acc`) and the part after it;
models Python `str.split(sep, 1)` succeeding with two parts.  `none` means
`sep` does not occur, in which case the two-name unpacking in the source
raises `ValueError`. -/
def splitOnceAux (sep : Char) : List Char → List Char → Option (List Char × List Char)
  | [], _ => none
  | c :: rest, acc =>
    if c = sep then some (acc.reverse, rest) else splitOnceAux sep rest (c :: acc)

/-- The remainder of a string after its first `'@'`, when there is one. -/
def afterAt (s : String) : Option String :=
  (splitOnceAux '@' s.data []).map (fun pr => String.mk pr.2)

/-- Python `str.splitlines()` restricted to the `\n`, `\r\n` and `\r`
terminators: maximal terminator-free segments, with no empty segment
after a trailing terminator. -/
def splitlinesCore : List Char → List Char → List String
  | [], acc => if acc.isEmpty then [] else [String.mk acc.reverse]
  | '\r' :: '\n' :: rest, acc => String.mk acc.reverse :: splitlinesCore rest []
  | '\r' :: rest, acc => String.mk acc.reverse :: splitlinesCore rest []
  | '\n' :: rest, acc => String.mk acc.reverse :: splitlinesCore rest []
  | c :: rest, acc => splitlinesCore rest (c :: acc)

/-- Split a string into its lines. -/
def splitlines (s : String) : List String := splitlinesCore s.data []

/-- Whitespace stripped by Python `str.strip()` (the ASCII whitespace
characters; this program only ever strips spaces around dataset names). -/
def isStripChar (c : Char) : Bool :=
  c == ' ' || c == '\t' || c == '\n' || c == '\r' || c == '\x0b' || c == '\x0c'

/-- Drop leading strippable characters. -/
def dropLeading : List Char → List Char
  | [] => []
  | c :: rest => if isStripChar c then dropLeading rest else c :: rest

/-- Python `str.strip()`: remove leading and trailing whitespace. -/
def strip (s : String) : String :=
  String.mk (dropLeading (dropLeading s.data.reverse).reverse)

/-- The snapshot type `T_SNAP` of the source: a (creation date, full
snapshot identifier) pair. -/
abbrev T_SNAP := Date × String

/-- Source `parse_snap_name`: split the name on the first `'@'`, discard
the dataset part, parse the remainder as an ISO date; on a missing `'@'`
or a malformed date (the `ValueError` cases) return `none`. -/
def parse_snap_name (snap : String) : Option T_SNAP :=
  match splitOnceAux '@' snap.data [] with
  | none => none
  | some (_, dateChars) =>
    match fromisoformat (String.mk dateChars) with
    | some parsed_date => some (parsed_date, snap)
    | none => none

/-- Source `filter_older_snaps`: the snapshots dated strictly before the
cutoff, in input order. -/
def filter_older_snaps (snap_list : List T_SNAP) (cutoff_date : Date) : List T_SNAP :=
  snap_list.filter (fun d => Date.lt d.1 cutoff_date)

/-- Source `get_cutoff_date`: today minus `abs retention_days` days
(Python `today - timedelta(days=abs(retention_days))`), as the iterated
day predecessor. -/
def get_cutoff_date (today : Date) (retention_days : Int) : Date :=
  Date.pred^[retention_days.natAbs] today

/-- The full snapshot name built by `create_snap` (source line
`dataset.strip() + "@" + today.isoformat()`). -/
def snapName (dataset : String) (today : Date) : String :=
  (strip dataset) ++ "@" ++ today.isoformat

/-- Ordering on `T_SNAP` used by `sorted` in `get_all_snaps`: Python tuple
order, i.e. lexicographic by date and then by identifier string. -/
def snapLEb (a b : T_SNAP) : Bool :=
  Date.lt a.1 b.1 || (decide (a.1 = b.1) && decide (a.2 ≤ b.2))

/-- Propositional form of `snapLEb`. -/
def SnapLE (a b : T_SNAP) : Prop := snapLEb a b = true

instance : DecidableRel SnapLE :=
  fun a b => inferInstanceAs (Decidable (snapLEb a b = true))

/-- An argument vector of an external command. -/
abbrev Argv := List String

/-- Source constant `ZFS_GET_DATASET`. -/
def ZFS_GET_DATASET : Argv := ["zfs", "list", "-H", "-t", "filesystem", "-o", "name"]

/-- Source constant `ZFS_LS_SNAP`. -/
def ZFS_LS_SNAP : Argv :=
  ["zfs", "list", "-H", "-t", "snapshot", "-o", "name", "-s", "creation"]

/-- Source constant `ZFS_TAKE_SNAP`. -/
def ZFS_TAKE_SNAP : Argv := ["zfs", "snapshot"]

/-- Source constant `ZFS_DESTROY`; note the trailing `-n` (ZFS trial mode). -/
def ZFS_DESTROY : Argv := ["zfs", "destroy", "-n"]

/-- Observable external behaviour of one run: a command actually executed
on the host (`real`), a command only logged under dry run (`dry`), or the
branch-distinguishing log notice of the main loop (`note`). -/
inductive Event where
  | real (argv : Argv)
  | dry (argv : Argv)
  | note (msg : String)
deriving DecidableEq, Repr

/-- Abstract host: which argument vectors execute successfully, and the
stdout text of a successful execution. -/
structure Host where
  runOk : Argv → Bool
  runOut : Argv → String

/-- Source `run_cmd` (named `runCmd` here): under dry run, log only and
return an empty successful result; otherwise execute on the host,
returning its stdout on success and the failing argv (the
`SubprocessError` path) on failure. -/
def runCmd (h : Host) (zfscmd : Argv) (dataset : String) (dry_run : Bool) :
    Except Argv String × List Event :=
  if dry_run then (Except.ok "", [Event.dry (zfscmd ++ [dataset])])
  else if h.runOk (zfscmd ++ [dataset]) then
    (Except.ok (h.runOut (zfscmd ++ [dataset])), [Event.real (zfscmd ++ [dataset])])
  else (Except.error (zfscmd ++ [dataset]), [Event.real (zfscmd ++ [dataset])])

/-- Source `has_zfs`: probe `zfs version` directly via `subprocess.run`
(not through `run_cmd`, so never dry). -/
def has_zfs (h : Host) : Bool × List Event :=
  (h.runOk ["zfs", "version"], [Event.real ["zfs", "version"]])

/-- Source `has_dataset`: run the dataset query; an execution failure
means the dataset does not exist. -/
def has_dataset (h : Host) (dataset : String) (dry_run : Bool) : Bool × List Event :=
  match runCmd h ZFS_GET_DATASET (strip dataset) dry_run with
  | (Except.ok _, evs) => (true, evs)
  | (Except.error _, evs) => (false, evs)

/-- Source `get_all_snaps`: list the snapshots of a dataset, split the
stdout into lines, parse each line, drop the unparseable ones, and sort
the rest (Python `sorted` on (date, name) tuples; insertion sort is an
equivalent stable sort).  A failed listing raises `SystemExit`. -/
def get_all_snaps (h : Host) (dataset : String) (dry_run : Bool) :
    Except Argv (List T_SNAP) × List Event :=
  match runCmd h ZFS_LS_SNAP (strip dataset) dry_run with
  | (Except.ok out, evs) =>
    (Except.ok (List.insertionSort SnapLE ((splitlines out).filterMap parse_snap_name)), evs)
  | (Except.error e, evs) => (Except.error e, evs)

/-- Source `remove_snaps`: issue one destroy command per snapshot, in
order, raising `SystemExit` at the first failure. -/
def remove_snaps (h : Host) : List T_SNAP → Bool → Except Argv Unit × List Event
  | [], _ => (Except.ok (), [])
  | snap :: rest, dry_run =>
    match runCmd h ZFS_DESTROY snap.2 dry_run with
    | (Except.ok _, evs) =>
      let r2 := remove_snaps h rest dry_run
      (r2.1, evs ++ r2.2)
    | (Except.error e, evs) => (Except.error e, evs)

/-- Source `create_snap`: build today's snapshot name, issue the create
command, and return the new snapshot descriptor; a failure raises
`SystemExit`. -/
def create_snap (h : Host) (today : Date) (dataset : String) (dry_run : Bool) :
    Except Argv T_SNAP × List Event :=
  let new_snap_name := snapName dataset today
  match runCmd h ZFS_TAKE_SNAP new_snap_name dry_run with
  | (Except.ok _, evs) => (Except.ok (today, new_snap_name), evs)
  | (Except.error e, evs) => (Except.error e, evs)

/-- Body of the per-dataset loop of `main` (source lines 176 to 188):
list, select the older-than-cutoff subset from the pre-creation listing,
create today's snapshot, then destroy the selected subset (or log that
there is nothing to remove). -/
def processDataset (h : Host) (today cutoff : Date) (dset : String) (dry_run : Bool) :
    Except Argv Unit × List Event :=
  match get_all_snaps h dset dry_run with
  | (Except.error e, evs) => (Except.error e, evs)
  | (Except.ok snap_list, evs1) =>
    let old_snaps := filter_older_snaps snap_list cutoff
    match create_snap h today dset dry_run with
    | (Except.error e, evs2) => (Except.error e, evs1 ++ evs2)
    | (Except.ok _, evs2) =>
      if old_snaps.isEmpty then
        (Except.ok (), evs1 ++ evs2 ++ [Event.note "No snapshots to remove"])
      else
        let r3 := remove_snaps h old_snaps dry_run
        (r3.1, evs1 ++ evs2 ++ r3.2)

/-- The per-dataset loop of `main`, stopping at the first `SystemExit`. -/
def processAll (h : Host) (today cutoff : Date) (dry_run : Bool) :
    List String → Except Argv Unit × List Event
  | [] => (Except.ok (), [])
  | dset :: rest =>
    match processDataset h today cutoff dset dry_run with
    | (Except.ok _, evs) =>
      let r2 := processAll h today cutoff dry_run rest
      (r2.1, evs ++ r2.2)
    | (Except.error e, evs) => (Except.error e, evs)

/-- The dataset-existence loop of `main`: check each dataset in turn
(with `has_dataset`'s default `dry_run=False`), stopping at the first
missing one. -/
def checkDatasets (h : Host) : List String → Bool × List Event
  | [] => (true, [])
  | ds :: rest =>
    match has_dataset h ds false with
    | (true, evs) =>
      let r2 := checkDatasets h rest
      (r2.1, evs ++ r2.2)
    | (false, evs) => (false, evs)

/-- The parsed command-line arguments of the program. -/
structure Args where
  datasets : List String
  retention_days : Int
  dry_run : Bool

/-- How a run of `main` terminates: normally, via `SystemExit(1)` from a
preflight check, or via `SystemExit(err)` after a failed command (also a
non-zero exit), recording the failing argv. -/
inductive Outcome where
  | ok
  | exit1
  | exitCmd (argv : Argv)
deriving DecidableEq, Repr

/-- Source `main`: probe for zfs, trim the dataset names, reject any
empty name, verify every dataset exists, then run the per-dataset
lifecycle loop with the cutoff computed from the retention days. -/
def zsnapMain (h : Host) (today : Date) (args : Args) : Outcome × List Event :=
  match has_zfs h with
  | (false, evs0) => (Outcome.exit1, evs0)
  | (true, evs0) =>
    let datasets := args.datasets.map strip
    if datasets.any (fun ds => ds == "") then (Outcome.exit1, evs0)
    else
      match checkDatasets h datasets with
      | (false, evs1) => (Outcome.exit1, evs0 ++ evs1)
      | (true, evs1) =>
        let cutoff := get_cutoff_date today args.retention_days
        let r2 := processAll h today cutoff args.dry_run datasets
        (match r2.1 with
          | Except.ok _ => Outcome.ok
          | Except.error e => Outcome.exitCmd e,
         evs0 ++ evs1 ++ r2.2)

/-- Whether an event is an invocation (real or logged) of a mutating
command, i.e. a snapshot creation or a snapshot destroy. -/
def isMutation : Event → Bool
  | Event.real argv => argv.take 2 == ZFS_TAKE_SNAP || argv.take 3 == ZFS_DESTROY
  | Event.dry argv => argv.take 2 == ZFS_TAKE_SNAP || argv.take 3 == ZFS_DESTROY
  | Event.note _ => false

/-- The data-model invariant on snapshot values: the identifier contains
exactly one `'@'`, and the creation date is exactly the parse of the
identifier's date portion (the part after the `'@'`). -/
def SnapInvariant (p : T_SNAP) : Prop :=
  p.2.data.count '@' = 1 ∧
    ∃ dsPart datePart : List Char,
      p.2.data = dsPart ++ '@' :: datePart ∧
      fromisoformat (String.mk datePart) = some p.1

/-- The snapshot inventory a successful (non-dry) listing produces for a
dataset: the host's stdout for the listing command, split into lines,
parsed, unparseable lines dropped, and sorted. -/
def listedSnaps (h : Host) (dset : String) : List T_SNAP :=
  List.insertionSort SnapLE
    ((splitlines (h.runOut (ZFS_LS_SNAP ++ [(strip dset)]))).filterMap parse_snap_name)

/-! ## Basic order facts about dates and snapshots -/

theorem Date.lt_iff (a b : Date) :
    Date.lt a b = true ↔
      (a.year < b.year ∨ (a.year = b.year ∧
        (a.month < b.month ∨ (a.month = b.month ∧ a.day < b.day)))) := by
  simp [Date.lt]

theorem Date.lt_irrefl (a : Date) : Date.lt a a = false := by
  simp [Date.lt]

theorem Date.eq_of_triple (a b : Date)
    (h : a.year = b.year ∧ a.month = b.month ∧ a.day = b.day) : a = b := by
  obtain ⟨ya, ma, da⟩ := a
  obtain ⟨yb, mb, db⟩ := b
  simp_all

theorem Date.lt_eq_false_iff (a b : Date) :
    Date.lt a b = false ↔
      ¬(a.year < b.year ∨ (a.year = b.year ∧
        (a.month < b.month ∨ (a.month = b.month ∧ a.day < b.day)))) := by
  rw [← Bool.not_eq_true, Date.lt_iff]

theorem Date.lt_false_trans (x y z : Date)
    (hxy : Date.lt x y = false) (hyz : Date.lt y z = false) :
    Date.lt x z = false := by
  rw [Date.lt_eq_false_iff] at *
  omega

theorem Date.lt_pred_self (d : Date) : Date.lt d (Date.pred d) = false := by
  unfold Date.pred
  split_ifs with h1 h2 h3 <;> rw [Date.lt_eq_false_iff] <;> simp <;> omega

theorem Date.lt_iterate_pred (d : Date) (k : Nat) :
    Date.lt d (Date.pred^[k] d) = false := by
  induction k with
  | zero => simpa using Date.lt_irrefl d
  | succ n ih =>
    rw [Function.iterate_succ_apply']
    exact Date.lt_false_trans _ _ _ ih (Date.lt_pred_self _)

theorem Date.lt_get_cutoff_date (today : Date) (n : Int) :
    Date.lt today (get_cutoff_date today n) = false :=
  Date.lt_iterate_pred today n.natAbs

instance : IsTotal T_SNAP SnapLE := by
  constructor
  intro a b
  simp only [SnapLE, snapLEb, Bool.or_eq_true, Bool.and_eq_true,
    decide_eq_true_eq, Date.lt_iff]
  by_cases hd : a.1 = b.1
  · rcases le_total a.2 b.2 with hs | hs
    · exact Or.inl (Or.inr ⟨hd, hs⟩)
    · exact Or.inr (Or.inr ⟨hd.symm, hs⟩)
  · have hne : ¬(a.1.year = b.1.year ∧ a.1.month = b.1.month ∧ a.1.day = b.1.day) :=
      fun hc => hd (Date.eq_of_triple _ _ hc)
    have h2 : (a.1.year < b.1.year ∨ (a.1.year = b.1.year ∧
        (a.1.month < b.1.month ∨ (a.1.month = b.1.month ∧ a.1.day < b.1.day)))) ∨
        (b.1.year < a.1.year ∨ (b.1.year = a.1.year ∧
        (b.1.month < a.1.month ∨ (b.1.month = a.1.month ∧ b.1.day < a.1.day)))) := by
      omega
    rcases h2 with h2 | h2
    · exact Or.inl (Or.inl h2)
    · exact Or.inr (Or.inl h2)

instance : IsTrans T_SNAP SnapLE := by
  constructor
  intro a b c hab hbc
  simp only [SnapLE, snapLEb, Bool.or_eq_true, Bool.and_eq_true,
    decide_eq_true_eq, Date.lt_iff] at hab hbc ⊢
  rcases hab with hab | ⟨hab1, hab2⟩ <;> rcases hbc with hbc | ⟨hbc1, hbc2⟩
  · left; omega
  · rw [hbc1] at hab; exact Or.inl hab
  · rw [hab1]; exact Or.inl hbc
  · exact Or.inr ⟨hab1.trans hbc1, le_trans hab2 hbc2⟩

/-! ## Facts about the name codec -/

theorem splitOnceAux_eq_none_iff (sep : Char) (l : List Char) : ∀ acc,
    (splitOnceAux sep l acc = none ↔ sep ∉ l) := by
  induction l with
  | nil => intro acc; simp [splitOnceAux]
  | cons c rest ih =>
    intro acc
    by_cases hc : c = sep
    · subst hc
      simp [splitOnceAux]
    · have hcs : ¬sep = c := fun h => hc h.symm
      simp [splitOnceAux, hc, ih, hcs]

theorem splitOnceAux_eq_some (sep : Char) (l : List Char) : ∀ acc pre rest,
    sep ∉ acc →
    splitOnceAux sep l acc = some (pre, rest) →
    acc.reverse ++ l = pre ++ sep :: rest ∧ sep ∉ pre := by
  induction l with
  | nil => intro acc pre rest _ h; simp [splitOnceAux] at h
  | cons c tail ih =>
    intro acc pre rest hacc h
    by_cases hc : c = sep
    · subst hc
      rw [splitOnceAux, if_pos rfl] at h
      injection h with h'
      rw [Prod.mk.injEq] at h'
      obtain ⟨h1, h2⟩ := h'
      subst h1; subst h2
      refine ⟨rfl, fun hmem => hacc ?_⟩
      simpa using hmem
    · rw [splitOnceAux, if_neg hc] at h
      have hacc2 : sep ∉ c :: acc := by
        intro hmem
        rcases List.mem_cons.mp hmem with h1 | h1
        · exact hc h1.symm
        · exact hacc h1
      have := ih (c :: acc) pre rest hacc2 h
      rw [List.reverse_cons, List.append_assoc] at this
      simpa using this

theorem splitOnceAux_append (sep : Char) (l₁ l₂ : List Char) (h : sep ∉ l₁) : ∀ acc,
    splitOnceAux sep (l₁ ++ sep :: l₂) acc = some (acc.reverse ++ l₁, l₂) := by
  induction l₁ with
  | nil => intro acc; simp [splitOnceAux]
  | cons c tail ih =>
    intro acc
    have hc : ¬c = sep := fun hh => h (by simp [hh])
    have htail : sep ∉ tail := fun hh => h (List.mem_cons_of_mem _ hh)
    rw [List.cons_append, splitOnceAux, if_neg hc, ih htail]
    simp

theorem daysInMonth_le (y m : Nat) : daysInMonth y m ≤ 31 := by
  unfold daysInMonth isLeapYear
  split_ifs <;> omega

theorem digitVal_digitChar (k : Nat) (h : k < 10) : digitVal (digitChar k) = k := by
  interval_cases k <;> decide

theorem digitChar_isDigit (k : Nat) (h : k < 10) : (digitChar k).isDigit = true := by
  interval_cases k <;> decide

theorem fromisoformat_isoformat (d : Date) (h : d.ValidB = true) :
    fromisoformat d.isoformat = some d := by
  obtain ⟨y, m, dd⟩ := d
  simp only [Date.ValidB, Bool.and_eq_true, decide_eq_true_eq] at h
  have hdata : (Date.isoformat ⟨y, m, dd⟩).data =
      [digitChar (y / 1000 % 10), digitChar (y / 100 % 10), digitChar (y / 10 % 10),
       digitChar (y % 10), '-', digitChar (m / 10 % 10), digitChar (m % 10), '-',
       digitChar (dd / 10 % 10), digitChar (dd % 10)] := rfl
  have hg1 : (digitChar (y / 1000 % 10)).isDigit = true := digitChar_isDigit _ (by omega)
  have hg2 : (digitChar (y / 100 % 10)).isDigit = true := digitChar_isDigit _ (by omega)
  have hg3 : (digitChar (y / 10 % 10)).isDigit = true := digitChar_isDigit _ (by omega)
  have hg4 : (digitChar (y % 10)).isDigit = true := digitChar_isDigit _ (by omega)
  have hg5 : (digitChar (m / 10 % 10)).isDigit = true := digitChar_isDigit _ (by omega)
  have hg6 : (digitChar (m % 10)).isDigit = true := digitChar_isDigit _ (by omega)
  have hg7 : (digitChar (dd / 10 % 10)).isDigit = true := digitChar_isDigit _ (by omega)
  have hg8 : (digitChar (dd % 10)).isDigit = true := digitChar_isDigit _ (by omega)
  have hy : 1000 * digitVal (digitChar (y / 1000 % 10)) +
      100 * digitVal (digitChar (y / 100 % 10)) +
      10 * digitVal (digitChar (y / 10 % 10)) + digitVal (digitChar (y % 10)) = y := by
    rw [digitVal_digitChar _ (by omega), digitVal_digitChar _ (by omega),
      digitVal_digitChar _ (by omega), digitVal_digitChar _ (by omega)]
    omega
  have hm : 10 * digitVal (digitChar (m / 10 % 10)) + digitVal (digitChar (m % 10)) = m := by
    rw [digitVal_digitChar _ (by omega), digitVal_digitChar _ (by omega)]
    omega
  have hd2 : 10 * digitVal (digitChar (dd / 10 % 10)) + digitVal (digitChar (dd % 10)) = dd := by
    have hdm := daysInMonth_le y m
    rw [digitVal_digitChar _ (by omega), digitVal_digitChar _ (by omega)]
    omega
  have hvb : Date.ValidB ⟨y, m, dd⟩ = true := by
    simp only [Date.ValidB, Bool.and_eq_true, decide_eq_true_eq]
    omega
  rw [fromisoformat, hdata]
  simp [fromisoList, hg1, hg2, hg3, hg4, hg5, hg6, hg7, hg8, hy, hm, hd2, hvb]

theorem String_mk_data (s : String) : String.mk s.data = s := rfl

theorem snapName_data (dataset : String) (d : Date) :
    (snapName dataset d).data = (strip dataset).data ++ '@' :: d.isoformat.data := by
  simp [snapName, String.data_append]

theorem fromisoList_chars (l : List Char) (d : Date) (h : fromisoList l = some d) :
    ∀ c ∈ l, c.isDigit = true ∨ c = '-' := by
  unfold fromisoList at h
  split at h
  · rename_i y1 y2 y3 y4 c1 m1 m2 c2 d1 d2
    split_ifs at h with hg
    · simp only [Bool.and_eq_true, beq_iff_eq] at hg
      obtain ⟨⟨⟨⟨⟨⟨⟨⟨⟨hc1, hc2⟩, h1⟩, h2⟩, h3⟩, h4⟩, h5⟩, h6⟩, h7⟩, h8⟩ := hg
      intro c hc
      simp only [List.mem_cons, List.not_mem_nil, or_false] at hc
      rcases hc with rfl | rfl | rfl | rfl | rfl | rfl | rfl | rfl | rfl | rfl
      · exact Or.inl h1
      · exact Or.inl h2
      · exact Or.inl h3
      · exact Or.inl h4
      · exact Or.inr hc1
      · exact Or.inl h5
      · exact Or.inl h6
      · exact Or.inr hc2
      · exact Or.inl h7
      · exact Or.inl h8
  · exact absurd h (by simp)

theorem fromisoformat_no_at (t : String) (d : Date) (h : fromisoformat t = some d) :
    '@' ∉ t.data := by
  intro hmem
  rcases fromisoList_chars t.data d h '@' hmem with hdig | hdash
  · exact absurd hdig (by decide)
  · exact absurd hdash (by decide)

theorem parse_some_elim (s : String) (p : T_SNAP) (h : parse_snap_name s = some p) :
    p.2 = s ∧ ∃ pre rest : List Char,
      s.data = pre ++ '@' :: rest ∧ '@' ∉ pre ∧
      fromisoformat (String.mk rest) = some p.1 := by
  unfold parse_snap_name at h
  split at h
  · exact absurd h (by simp)
  · rename_i pr dateChars heq
    split at h
    · rename_i parsed_date hiso
      injection h with h'
      subst h'
      obtain ⟨hdecomp, hnotin⟩ :=
        splitOnceAux_eq_some '@' s.data [] pr dateChars (by simp) heq
      simp only [List.reverse_nil, List.nil_append] at hdecomp
      exact ⟨rfl, pr, dateChars, hdecomp, hnotin, hiso⟩
    · exact absurd h (by simp)

theorem parse_snapName_eq (dataset : String) (d : Date)
    (hat : '@' ∉ (strip dataset).data) (hv : d.ValidB = true) :
    parse_snap_name (snapName dataset d) = some (d, snapName dataset d) := by
  have hsplit : splitOnceAux '@' (snapName dataset d).data [] =
      some ((strip dataset).data, d.isoformat.data) := by
    rw [snapName_data]
    simpa using splitOnceAux_append '@' (strip dataset).data d.isoformat.data hat []
  have hiso : fromisoformat (String.mk d.isoformat.data) = some d := by
    rw [String_mk_data]
    exact fromisoformat_isoformat d hv
  simp [parse_snap_name, hsplit, hiso]

theorem mem_filterMap_parse (lines : List String) (p : T_SNAP)
    (h : p ∈ lines.filterMap parse_snap_name) : parse_snap_name p.2 = some p := by
  rcases List.mem_filterMap.mp h with ⟨a, _, ha⟩
  have := (parse_some_elim a p ha).1
  rw [this]
  exact ha

/-! ## Facts about the command layer -/

theorem runCmd_dry (h : Host) (zfscmd : Argv) (target : String) :
    runCmd h zfscmd target true = (Except.ok "", [Event.dry (zfscmd ++ [target])]) := rfl

theorem runCmd_ok (h : Host) (zfscmd : Argv) (target : String)
    (hok : h.runOk (zfscmd ++ [target]) = true) :
    runCmd h zfscmd target false =
      (Except.ok (h.runOut (zfscmd ++ [target])), [Event.real (zfscmd ++ [target])]) := by
  simp [runCmd, hok]

theorem runCmd_snd (h : Host) (zfscmd : Argv) (target : String) (dr : Bool) :
    (runCmd h zfscmd target dr).2 =
      [if dr then Event.dry (zfscmd ++ [target]) else Event.real (zfscmd ++ [target])] := by
  unfold runCmd
  split_ifs <;> rfl

theorem remove_snaps_ok (h : Host) (hok : ∀ a, h.runOk a = true) (l : List T_SNAP) :
    remove_snaps h l false =
      (Except.ok (), l.map (fun p => Event.real (ZFS_DESTROY ++ [p.2]))) := by
  induction l with
  | nil => rfl
  | cons s rest ih => simp [remove_snaps, runCmd, hok, ih]

theorem remove_snaps_dry (h : Host) (l : List T_SNAP) :
    remove_snaps h l true =
      (Except.ok (), l.map (fun p => Event.dry (ZFS_DESTROY ++ [p.2]))) := by
  induction l with
  | nil => rfl
  | cons s rest ih => simp [remove_snaps, runCmd, ih]

theorem remove_snaps_events (h : Host) (l : List T_SNAP) (dr : Bool) :
    ∀ e ∈ (remove_snaps h l dr).2, ∃ s, s ∈ l ∧
      (e = Event.real (ZFS_DESTROY ++ [s.2]) ∨ e = Event.dry (ZFS_DESTROY ++ [s.2])) := by
  cases dr
  · induction l with
    | nil => intro e he; simp [remove_snaps] at he
    | cons s rest ih =>
      intro e he
      by_cases hok : h.runOk (ZFS_DESTROY ++ [s.2]) = true
      · rw [remove_snaps, runCmd_ok h ZFS_DESTROY s.2 hok] at he
        simp only [List.cons_append, List.nil_append, List.mem_cons] at he
        rcases he with rfl | he
        · exact ⟨s, List.mem_cons_self _ _, Or.inl rfl⟩
        · rcases ih e he with ⟨t, ht, h2⟩
          exact ⟨t, List.mem_cons_of_mem _ ht, h2⟩
      · have hr : runCmd h ZFS_DESTROY s.2 false =
            (Except.error (ZFS_DESTROY ++ [s.2]), [Event.real (ZFS_DESTROY ++ [s.2])]) := by
          simp [runCmd, hok]
        rw [remove_snaps, hr] at he
        simp only [List.mem_singleton] at he
        exact ⟨s, List.mem_cons_self _ _, Or.inl he⟩
  · intro e he
    rw [remove_snaps_dry] at he
    rcases List.mem_map.mp he with ⟨s, hs, rfl⟩
    exact ⟨s, hs, Or.inr rfl⟩

theorem get_all_snaps_ok (h : Host) (dataset : String)
    (hok : h.runOk (ZFS_LS_SNAP ++ [(strip dataset)]) = true) :
    get_all_snaps h dataset false =
      (Except.ok (listedSnaps h dataset), [Event.real (ZFS_LS_SNAP ++ [(strip dataset)])]) := by
  rw [get_all_snaps, runCmd_ok h ZFS_LS_SNAP (strip dataset) hok]
  rfl

theorem get_all_snaps_dry (h : Host) (dataset : String) :
    get_all_snaps h dataset true =
      (Except.ok [], [Event.dry (ZFS_LS_SNAP ++ [(strip dataset)])]) := rfl

theorem create_snap_ok (h : Host) (today : Date) (dataset : String)
    (hok : h.runOk (ZFS_TAKE_SNAP ++ [snapName dataset today]) = true) :
    create_snap h today dataset false =
      (Except.ok (today, snapName dataset today),
       [Event.real (ZFS_TAKE_SNAP ++ [snapName dataset today])]) := by
  rw [create_snap, runCmd_ok h ZFS_TAKE_SNAP (snapName dataset today) hok]

theorem create_snap_dry (h : Host) (today : Date) (dataset : String) :
    create_snap h today dataset true =
      (Except.ok (today, snapName dataset today),
       [Event.dry (ZFS_TAKE_SNAP ++ [snapName dataset today])]) := rfl

theorem processDataset_dry (h : Host) (today cutoff : Date) (dset : String) :
    processDataset h today cutoff dset true =
      (Except.ok (), [Event.dry (ZFS_LS_SNAP ++ [(strip dset)]),
        Event.dry (ZFS_TAKE_SNAP ++ [snapName dset today]),
        Event.note "No snapshots to remove"]) := rfl

theorem processAll_dry_no_real (h : Host) (today cutoff : Date) (l : List String) :
    ∀ e ∈ (processAll h today cutoff true l).2, ∀ argv, e ≠ Event.real argv := by
  induction l with
  | nil => intro e he; simp [processAll] at he
  | cons ds rest ih =>
    intro e he argv
    rw [processAll, processDataset_dry] at he
    simp only [List.cons_append, List.nil_append, List.mem_cons] at he
    rcases he with rfl | rfl | rfl | he
    · simp
    · simp
    · simp
    · exact ih e he argv

theorem has_dataset_snd (h : Host) (ds : String) (dr : Bool) :
    (has_dataset h ds dr).2 = (runCmd h ZFS_GET_DATASET (strip ds) dr).2 := by
  unfold has_dataset
  rcases hr : runCmd h ZFS_GET_DATASET (strip ds) dr with ⟨r, evs⟩
  cases r <;> simp

theorem checkDatasets_events (h : Host) (l : List String) :
    ∀ e ∈ (checkDatasets h l).2, ∃ ds, e = Event.real (ZFS_GET_DATASET ++ [ds]) := by
  induction l with
  | nil => intro e he; simp [checkDatasets] at he
  | cons ds rest ih =>
    intro e he
    have hsnd : (has_dataset h ds false).2 = [Event.real (ZFS_GET_DATASET ++ [(strip ds)])] := by
      rw [has_dataset_snd, runCmd_snd]
      rfl
    rcases hd : has_dataset h ds false with ⟨b, evs⟩
    have hevs : evs = [Event.real (ZFS_GET_DATASET ++ [(strip ds)])] := by
      rw [hd] at hsnd
      exact hsnd
    rw [checkDatasets, hd] at he
    cases b
    · rw [hevs] at he
      rcases List.mem_singleton.mp he with rfl
      exact ⟨(strip ds), rfl⟩
    · simp only [List.mem_append, hevs, List.mem_singleton] at he
      rcases he with rfl | he
      · exact ⟨(strip ds), rfl⟩
      · exact ih e he

theorem checkDatasets_fst_false (h : Host) (l : List String)
    (hx : ∃ ds ∈ l, (has_dataset h ds false).1 = false) :
    (checkDatasets h l).1 = false := by
  induction l with
  | nil => simp at hx
  | cons ds rest ih =>
    rcases hd : has_dataset h ds false with ⟨b, evs⟩
    rw [checkDatasets, hd]
    cases b
    · rfl
    · rcases hx with ⟨x, hxl, hxf⟩
      rcases List.mem_cons.mp hxl with rfl | hxl
      · rw [hd] at hxf
        exact absurd hxf (by simp)
      · simpa using ih ⟨x, hxl, hxf⟩

/-! ## Claim theorems -/

/-- C2: `filter_older_snaps` returns exactly the snapshots whose creation
date is strictly before the cutoff, as a sublist of the input (so input
order is preserved); a snapshot dated exactly on the cutoff date is
excluded from the result, i.e. retained. -/
theorem claim_filter_older_snaps (snap_list : List T_SNAP) (cutoff : Date) :
    (∀ p : T_SNAP, p ∈ filter_older_snaps snap_list cutoff ↔
      p ∈ snap_list ∧ Date.lt p.1 cutoff = true) ∧
    (filter_older_snaps snap_list cutoff).Sublist snap_list ∧
    (∀ p : T_SNAP, p.1 = cutoff → p ∉ filter_older_snaps snap_list cutoff) := by
  refine ⟨?_, List.filter_sublist _, ?_⟩
  · intro p
    simp [filter_older_snaps, List.mem_filter]
  · intro p hp hmem
    rw [filter_older_snaps, List.mem_filter, hp, Date.lt_irrefl] at hmem
    exact absurd hmem.2 (by simp)

/-- Witness for the C2 theorem: with cutoff 2026-02-10, the snapshot dated
exactly 2026-02-10 is not selected for removal. -/
theorem claim_filter_older_snaps_witness :
    ((⟨2026, 2, 10⟩ : Date), "tank/data@2026-02-10") ∉
      filter_older_snaps
        [(⟨2026, 1, 1⟩, "tank/data@2026-01-01"), (⟨2026, 2, 10⟩, "tank/data@2026-02-10")]
        ⟨2026, 2, 10⟩ :=
  (claim_filter_older_snaps _ _).2.2 _ rfl

/-- C4: parsing the name built by `create_snap`'s concatenation (trimmed
dataset, `@`, ISO date) yields exactly the snapshot (date, dataset@date):
the round-trip holds for every dataset whose trimmed name contains no `@`
(true of every valid identifier of the form d@YYYY-MM-DD) and every date
in the representable range. -/
theorem claim_roundtrip (dataset : String) (d : Date)
    (hat : '@' ∉ (strip dataset).data) (hv : d.ValidB = true) :
    parse_snap_name (snapName dataset d) = some (d, snapName dataset d) :=
  parse_snapName_eq dataset d hat hv

/-- Witness for the C4 theorem at dataset tank/data and date 2026-02-16. -/
theorem claim_roundtrip_witness :
    parse_snap_name (snapName "tank/data" ⟨2026, 2, 16⟩) =
      some (⟨2026, 2, 16⟩, snapName "tank/data" ⟨2026, 2, 16⟩) :=
  claim_roundtrip "tank/data" ⟨2026, 2, 16⟩ (by decide) (by decide)

/-- C7: on every malformed input — no `@` separator (`afterAt` is `none`
exactly when the string has no `@`), or a post-`@` remainder that is not an
ISO calendar date — `parse_snap_name` returns `none`; being a total Lean
function it cannot raise, mirroring the caught `ValueError`. -/
theorem claim_parse_malformed (s : String)
    (h : afterAt s = none ∨ ∃ r, afterAt s = some r ∧ fromisoformat r = none) :
    parse_snap_name s = none ∧ (afterAt s = none ↔ '@' ∉ s.data) := by
  constructor
  · rcases h with h | ⟨r, hr, his⟩
    · rcases hsp : splitOnceAux '@' s.data [] with _ | pr
      · simp [parse_snap_name, hsp]
      · rw [afterAt, hsp] at h
        simp at h
    · rcases hsp : splitOnceAux '@' s.data [] with _ | pr
      · simp [parse_snap_name, hsp]
      · rcases pr with ⟨pre, rest⟩
        rw [afterAt, hsp] at hr
        simp only [Option.map_some', Option.some_inj] at hr
        rw [← hr] at his
        simp [parse_snap_name, hsp, his]
  · simp [afterAt, Option.map_eq_none', splitOnceAux_eq_none_iff]

/-- Witness for the C7 theorem: a name without `@` and a name with a
non-date suffix both parse to `none`. -/
theorem claim_parse_malformed_witness :
    parse_snap_name "tankdata" = none ∧ parse_snap_name "tank@not-a-date" = none :=
  ⟨(claim_parse_malformed "tankdata" (Or.inl (by decide))).1,
   (claim_parse_malformed "tank@not-a-date" (Or.inr ⟨"not-a-date", by decide, by decide⟩)).1⟩

/-- C10: with the dry-run flag set, `get_all_snaps` returns the empty
inventory regardless of the host (run_cmd returns empty stdout), so the
older-than-cutoff subset is empty, no destroy invocation is issued, and
the nothing-to-remove branch is taken — a dry run never previews which
snapshots would be pruned. -/
theorem claim_dry_run_no_preview (h : Host) (dataset : String) (today cutoff : Date) :
    get_all_snaps h dataset true =
      (Except.ok [], [Event.dry (ZFS_LS_SNAP ++ [(strip dataset)])]) ∧
    filter_older_snaps [] cutoff = [] ∧
    processDataset h today cutoff dataset true =
      (Except.ok (), [Event.dry (ZFS_LS_SNAP ++ [(strip dataset)]),
        Event.dry (ZFS_TAKE_SNAP ++ [snapName dataset today]),
        Event.note "No snapshots to remove"]) :=
  ⟨get_all_snaps_dry h dataset, rfl, processDataset_dry h today cutoff dataset⟩

/-- C3: for every dataset and every text the listing command returns,
`get_all_snaps` yields exactly the parseable lines of the text (split into
lines, each parsed, unparseable ones dropped) as a sequence sorted
ascending in the natural order of the (creationDate, identifier) pair. -/
theorem claim_get_all_snaps_sorted (h : Host) (dataset : String)
    (hok : h.runOk (ZFS_LS_SNAP ++ [(strip dataset)]) = true) :
    ∃ res : List T_SNAP,
      get_all_snaps h dataset false =
        (Except.ok res, [Event.real (ZFS_LS_SNAP ++ [(strip dataset)])]) ∧
      res.Perm
        ((splitlines (h.runOut (ZFS_LS_SNAP ++ [(strip dataset)]))).filterMap parse_snap_name) ∧
      List.Sorted SnapLE res :=
  ⟨listedSnaps h dataset, get_all_snaps_ok h dataset hok,
    List.perm_insertionSort _ _, List.sorted_insertionSort _ _⟩

/-- Witness for the C3 theorem on a host whose listing output is unsorted
and contains a malformed line. -/
theorem claim_get_all_snaps_sorted_witness :
    ∃ res : List T_SNAP,
      get_all_snaps ⟨fun _ => true, fun _ => "tank@2026-02-10\ntank@bad\ntank@2026-02-01"⟩
          "tank" false =
        (Except.ok res, [Event.real (ZFS_LS_SNAP ++ [(strip "tank")])]) ∧
      res.Perm ((splitlines
          ((⟨fun _ => true, fun _ => "tank@2026-02-10\ntank@bad\ntank@2026-02-01"⟩ : Host).runOut
            (ZFS_LS_SNAP ++ [(strip "tank")]))).filterMap parse_snap_name) ∧
      List.Sorted SnapLE res :=
  claim_get_all_snaps_sorted _ "tank" rfl

/-- C9: the destroy template is fixed to `zfs destroy -n`, so every destroy
invocation `remove_snaps` issues — real or dry-logged, for any snapshot
list and either dry_run value — carries the ZFS trial flag; a destroy
command without `-n` is never issued. -/
theorem claim_destroy_trial :
    ZFS_DESTROY = ["zfs", "destroy", "-n"] ∧
    ∀ (h : Host) (snaps : List T_SNAP) (dr : Bool),
      ∀ e ∈ (remove_snaps h snaps dr).2, ∃ s ∈ snaps, ∃ argv : Argv,
        argv = ZFS_DESTROY ++ [s.2] ∧ argv.take 3 = ["zfs", "destroy", "-n"] ∧
        (e = Event.real argv ∨ e = Event.dry argv) := by
  refine ⟨rfl, ?_⟩
  intro h snaps dr e he
  rcases remove_snaps_events h snaps dr e he with ⟨s, hs, hor⟩
  exact ⟨s, hs, ZFS_DESTROY ++ [s.2], rfl, rfl, hor⟩

/-- Witness for the C9 theorem: the one destroy event of a concrete
non-dry `remove_snaps` run carries the trial flag. -/
theorem claim_destroy_trial_witness :
    ∃ s ∈ ([(⟨2026, 1, 1⟩, "tank@2026-01-01")] : List T_SNAP), ∃ argv : Argv,
      argv = ZFS_DESTROY ++ [s.2] ∧ argv.take 3 = ["zfs", "destroy", "-n"] ∧
      (Event.real (ZFS_DESTROY ++ ["tank@2026-01-01"]) = Event.real argv ∨
        Event.real (ZFS_DESTROY ++ ["tank@2026-01-01"]) = Event.dry argv) :=
  claim_destroy_trial.2 ⟨fun _ => true, fun _ => ""⟩ _ false _ (by decide)

/-- C8: every snapshot value the program produces — whether returned by
`parse_snap_name` or by `create_snap` — satisfies the data-model
invariant: its identifier contains exactly one `@` separating the dataset
path from an ISO date, and its creation date equals the parse of the
identifier's date portion.  For `create_snap` this requires the fixed
today value to be a representable date and the dataset name, as every
name the external tool accepts, to contain no `@`. -/
theorem claim_snapshot_invariant :
    (∀ (s : String) (p : T_SNAP), parse_snap_name s = some p → SnapInvariant p) ∧
    (∀ (h : Host) (today : Date) (dataset : String) (dr : Bool) (p : T_SNAP)
        (evs : List Event),
      today.ValidB = true → '@' ∉ (strip dataset).data →
      create_snap h today dataset dr = (Except.ok p, evs) → SnapInvariant p) := by
  constructor
  · intro s p hp
    obtain ⟨hsnd, pre, rest, hdecomp, hpre, hiso⟩ := parse_some_elim s p hp
    have hrest : '@' ∉ rest := by
      have := fromisoformat_no_at (String.mk rest) p.1 hiso
      simpa using this
    refine ⟨?_, pre, rest, by rw [hsnd]; exact hdecomp, hiso⟩
    rw [hsnd, hdecomp]
    rw [List.count_append, List.count_cons]
    simp [List.count_eq_zero.mpr hpre, List.count_eq_zero.mpr hrest]
  · intro h today dataset dr p evs hv hat hc
    have hp : p = (today, snapName dataset today) := by
      rcases hr : runCmd h ZFS_TAKE_SNAP (snapName dataset today) dr with ⟨r, evs2⟩
      rw [create_snap, hr] at hc
      cases r with
      | ok v =>
        injection hc with h1 h2
        injection h1 with h1
        exact h1.symm
      | error err => exact absurd hc (by simp)
    subst hp
    have hiso : '@' ∉ today.isoformat.data := by
      have := fromisoformat_no_at today.isoformat today (fromisoformat_isoformat today hv)
      exact this
    refine ⟨?_, (strip dataset).data, today.isoformat.data, snapName_data dataset today, ?_⟩
    · rw [snapName_data]
      rw [List.count_append, List.count_cons]
      simp [List.count_eq_zero.mpr hat, List.count_eq_zero.mpr hiso]
    · rw [String_mk_data]
      exact fromisoformat_isoformat today hv

/-- Witness for the C8 theorem: the invariant at a parsed snapshot and at
a snapshot returned by a concrete `create_snap` run. -/
theorem claim_snapshot_invariant_witness :
    SnapInvariant (⟨2026, 2, 16⟩, "tank/data@2026-02-16") ∧
    SnapInvariant (⟨2026, 2, 16⟩, snapName "tank" ⟨2026, 2, 16⟩) :=
  ⟨claim_snapshot_invariant.1 "tank/data@2026-02-16" _ (by decide),
   claim_snapshot_invariant.2 ⟨fun _ => true, fun _ => ""⟩ ⟨2026, 2, 16⟩ "tank" false _
     [Event.real (ZFS_TAKE_SNAP ++ [snapName "tank" ⟨2026, 2, 16⟩])]
     (by decide) (by decide) rfl⟩

/-- C5: before any create or destroy command is issued, `main` verifies
every supplied dataset name is non-empty after stripping and that every
requested dataset exists; if either check fails for any dataset, the run
ends with `SystemExit(1)` and the whole trace contains no create or
destroy invocation for any dataset — an all-or-nothing gate. -/
theorem claim_precheck_gate (h : Host) (today : Date) (args : Args)
    (hbad : (∃ ds ∈ args.datasets, strip ds = "") ∨
            (∃ ds ∈ args.datasets, (has_dataset h (strip ds) false).1 = false)) :
    (zsnapMain h today args).1 = Outcome.exit1 ∧
    ∀ e ∈ (zsnapMain h today args).2, isMutation e = false := by
  have hprobe : isMutation (Event.real ["zfs", "version"]) = false := rfl
  have hget : ∀ ds, isMutation (Event.real (ZFS_GET_DATASET ++ [ds])) = false :=
    fun ds => rfl
  cases hz : h.runOk ["zfs", "version"] with
  | false =>
    have hmain : zsnapMain h today args = (Outcome.exit1, [Event.real ["zfs", "version"]]) := by
      simp [zsnapMain, has_zfs, hz]
    rw [hmain]
    refine ⟨rfl, ?_⟩
    intro e he
    rcases List.mem_singleton.mp he with rfl
    exact hprobe
  | true =>
    by_cases hempty : (args.datasets.map strip).any (fun ds => ds == "") = true
    · have hmain : zsnapMain h today args =
          (Outcome.exit1, [Event.real ["zfs", "version"]]) := by
        simp [zsnapMain, has_zfs, hz, hempty]
      rw [hmain]
      refine ⟨rfl, ?_⟩
      intro e he
      rcases List.mem_singleton.mp he with rfl
      exact hprobe
    · have hmiss : ∃ ds ∈ args.datasets, (has_dataset h (strip ds) false).1 = false := by
        rcases hbad with ⟨ds, hds, hde⟩ | hm
        · exact absurd (List.any_eq_true.mpr
            ⟨strip ds, List.mem_map_of_mem _ hds, by simp [hde]⟩) hempty
        · exact hm
      rcases hmiss with ⟨ds, hds, hdf⟩
      have hcf : (checkDatasets h (args.datasets.map strip)).1 = false :=
        checkDatasets_fst_false h _ ⟨strip ds, List.mem_map_of_mem _ hds, hdf⟩
      rcases hc : checkDatasets h (args.datasets.map strip) with ⟨b, evs1⟩
      have hb : b = false := by
        rw [hc] at hcf
        exact hcf
      subst hb
      have hmain : zsnapMain h today args =
          (Outcome.exit1, [Event.real ["zfs", "version"]] ++ evs1) := by
        simp [zsnapMain, has_zfs, hz, hempty, hc]
      rw [hmain]
      refine ⟨rfl, ?_⟩
      intro e he
      rcases List.mem_append.mp he with h1 | h1
      · rcases List.mem_singleton.mp h1 with rfl
        exact hprobe
      · have h2 : e ∈ (checkDatasets h (args.datasets.map strip)).2 := by
          rw [hc]
          exact h1
        rcases checkDatasets_events h _ e h2 with ⟨x, rfl⟩
        exact hget x

/-- Witness for the C5 theorem: a batch of two names where the second is
blank aborts with exit 1 and no mutation event. -/
theorem claim_precheck_gate_witness :
    (zsnapMain ⟨fun _ => true, fun _ => ""⟩ ⟨2026, 2, 16⟩ ⟨["tank", " "], 182, false⟩).1 =
      Outcome.exit1 ∧
    ∀ e ∈ (zsnapMain ⟨fun _ => true, fun _ => ""⟩ ⟨2026, 2, 16⟩
        ⟨["tank", " "], 182, false⟩).2, isMutation e = false :=
  claim_precheck_gate _ _ _ (Or.inl ⟨" ", by simp, by decide⟩)

/-- C6 counterexample: a full dry run (dry-run flag set, one existing
dataset) still executes real commands against the host — the zfs
availability probe and the dataset existence query — so it is false that
no command is ever actually invoked during a dry run. -/
theorem claim_dry_run_counterexample :
    (zsnapMain ⟨fun _ => true, fun _ => ""⟩ ⟨2026, 2, 16⟩ ⟨["tank"], 182, true⟩).1 =
      Outcome.ok ∧
    Event.real ["zfs", "version"] ∈
      (zsnapMain ⟨fun _ => true, fun _ => ""⟩ ⟨2026, 2, 16⟩ ⟨["tank"], 182, true⟩).2 ∧
    Event.real (ZFS_GET_DATASET ++ ["tank"]) ∈
      (zsnapMain ⟨fun _ => true, fun _ => ""⟩ ⟨2026, 2, 16⟩ ⟨["tank"], 182, true⟩).2 := by
  refine ⟨rfl, ?_, ?_⟩ <;> decide

/-- C6 amended: `run_cmd` with the dry-run flag performs no external
effect and returns an empty successful result immediately, and every
command issued through `run_cmd` during the per-dataset pipeline of a
dry run is only logged; however, the preflight checks (the zfs probe and
the per-dataset existence queries) execute real commands even when the
dry-run flag is set, so those are the only real invocations of a dry
run. -/
theorem claim_dry_run_amended (h : Host) (today : Date) (args : Args)
    (hdry : args.dry_run = true) :
    (∀ (zfscmd : Argv) (target : String),
      runCmd h zfscmd target true = (Except.ok "", [Event.dry (zfscmd ++ [target])])) ∧
    ∀ e ∈ (zsnapMain h today args).2, ∀ argv : Argv, e = Event.real argv →
      argv = ["zfs", "version"] ∨ ∃ ds, argv = ZFS_GET_DATASET ++ [ds] := by
  refine ⟨fun z t => rfl, ?_⟩
  cases hz : h.runOk ["zfs", "version"] with
  | false =>
    have hmain : zsnapMain h today args = (Outcome.exit1, [Event.real ["zfs", "version"]]) := by
      simp [zsnapMain, has_zfs, hz]
    rw [hmain]
    intro e he argv hre
    rcases List.mem_singleton.mp he with rfl
    injection hre with h1
    exact Or.inl h1.symm
  | true =>
    by_cases hempty : (args.datasets.map strip).any (fun ds => ds == "") = true
    · have hmain : zsnapMain h today args =
          (Outcome.exit1, [Event.real ["zfs", "version"]]) := by
        simp [zsnapMain, has_zfs, hz, hempty]
      rw [hmain]
      intro e he argv hre
      rcases List.mem_singleton.mp he with rfl
      injection hre with h1
      exact Or.inl h1.symm
    · rcases hc : checkDatasets h (args.datasets.map strip) with ⟨b, evs1⟩
      cases b with
      | false =>
        have hmain : zsnapMain h today args =
            (Outcome.exit1, [Event.real ["zfs", "version"]] ++ evs1) := by
          simp [zsnapMain, has_zfs, hz, hempty, hc]
        rw [hmain]
        intro e he argv hre
        rcases List.mem_append.mp he with h1 | h1
        · rcases List.mem_singleton.mp h1 with rfl
          injection hre with h1
          exact Or.inl h1.symm
        · subst hre
          have h2 : Event.real argv ∈ (checkDatasets h (args.datasets.map strip)).2 := by
            rw [hc]
            exact h1
          rcases checkDatasets_events h _ _ h2 with ⟨x, hx⟩
          injection hx with h3
          exact Or.inr ⟨x, h3⟩
      | true =>
        have htr : (zsnapMain h today args).2 =
            [Event.real ["zfs", "version"]] ++ evs1 ++
              (processAll h today (get_cutoff_date today args.retention_days) true
                (args.datasets.map strip)).2 := by
          simp [zsnapMain, has_zfs, hz, hempty, hc, hdry]
        rw [htr]
        intro e he argv hre
        rcases List.mem_append.mp he with h1 | h1
        · rcases List.mem_append.mp h1 with h2 | h2
          · rcases List.mem_singleton.mp h2 with rfl
            injection hre with h3
            exact Or.inl h3.symm
          · subst hre
            have h3 : Event.real argv ∈ (checkDatasets h (args.datasets.map strip)).2 := by
              rw [hc]
              exact h2
            rcases checkDatasets_events h _ _ h3 with ⟨x, hx⟩
            injection hx with h4
            exact Or.inr ⟨x, h4⟩
        · exact absurd hre (processAll_dry_no_real h _ _ _ e h1 argv)

/-- Witness for the amended C6 theorem at a concrete dry run. -/
theorem claim_dry_run_amended_witness :
    (∀ (zfscmd : Argv) (target : String),
      runCmd ⟨fun _ => true, fun _ => ""⟩ zfscmd target true =
        (Except.ok "", [Event.dry (zfscmd ++ [target])])) ∧
    ∀ e ∈ (zsnapMain ⟨fun _ => true, fun _ => ""⟩ ⟨2026, 2, 16⟩ ⟨["tank"], 182, true⟩).2,
      ∀ argv : Argv, e = Event.real argv →
        argv = ["zfs", "version"] ∨ ∃ ds, argv = ZFS_GET_DATASET ++ [ds] :=
  claim_dry_run_amended _ _ _ rfl

/-- C1: in the per-dataset pipeline of `main` (the loop body, here
`processDataset`, run with the cutoff `main` computes), the steps occur in
the order list, filter from the pre-creation inventory, create, destroy:
the trace is the listing invocation, then the creation invocation, then
exactly the destroy invocations for the older-than-cutoff subset of the
pre-creation inventory (or the nothing-to-remove notice); and the
snapshot created in the same run is never among the snapshots passed to
`remove_snaps`. -/
theorem claim_pipeline_order (h : Host) (today : Date) (n : Int) (dset : String)
    (hok : ∀ a, h.runOk a = true)
    (hat : '@' ∉ (strip dset).data)
    (hv : today.ValidB = true) :
    processDataset h today (get_cutoff_date today n) dset false =
      (Except.ok (),
        Event.real (ZFS_LS_SNAP ++ [strip dset]) ::
          Event.real (ZFS_TAKE_SNAP ++ [snapName dset today]) ::
          (if (filter_older_snaps (listedSnaps h dset) (get_cutoff_date today n)).isEmpty
            then [Event.note "No snapshots to remove"]
            else (filter_older_snaps (listedSnaps h dset) (get_cutoff_date today n)).map
              (fun p => Event.real (ZFS_DESTROY ++ [p.2])))) ∧
    snapName dset today ∉
      (filter_older_snaps (listedSnaps h dset) (get_cutoff_date today n)).map Prod.snd := by
  constructor
  · by_cases hold :
        (filter_older_snaps (listedSnaps h dset) (get_cutoff_date today n)).isEmpty = true
    · simp [processDataset, get_all_snaps_ok h dset (hok _),
        create_snap_ok h today dset (hok _), hold]
    · simp [processDataset, get_all_snaps_ok h dset (hok _),
        create_snap_ok h today dset (hok _), hold, remove_snaps_ok h hok]
  · intro hmem
    rcases List.mem_map.mp hmem with ⟨p, hpold, hpname⟩
    have hpf := hpold
    rw [filter_older_snaps, List.mem_filter] at hpf
    have hsort : p ∈ (splitlines (h.runOut (ZFS_LS_SNAP ++ [strip dset]))).filterMap
        parse_snap_name := by
      have h1 := hpf.1
      rw [listedSnaps] at h1
      exact ((List.perm_insertionSort SnapLE _).mem_iff).mp h1
    have hparse : parse_snap_name p.2 = some p := mem_filterMap_parse _ _ hsort
    rw [hpname] at hparse
    have hbuilt := parse_snapName_eq dset today hat hv
    rw [hparse] at hbuilt
    have hp : p = (today, snapName dset today) := by
      injection hbuilt
    have hlt := hpf.2
    rw [hp] at hlt
    rw [Date.lt_get_cutoff_date] at hlt
    exact Bool.false_ne_true hlt

/-- Witness for the C1 theorem: a concrete host with two listed snapshots,
one older than the cutoff. -/
theorem claim_pipeline_order_witness :
    processDataset ⟨fun _ => true, fun _ => "tank/data@2026-02-01\ntank/data@2025-01-10"⟩
        ⟨2026, 2, 16⟩ (get_cutoff_date ⟨2026, 2, 16⟩ 182) "tank/data" false =
      (Except.ok (),
        Event.real (ZFS_LS_SNAP ++ [strip "tank/data"]) ::
          Event.real (ZFS_TAKE_SNAP ++ [snapName "tank/data" ⟨2026, 2, 16⟩]) ::
          (if (filter_older_snaps
                (listedSnaps ⟨fun _ => true, fun _ => "tank/data@2026-02-01\ntank/data@2025-01-10"⟩
                  "tank/data")
                (get_cutoff_date ⟨2026, 2, 16⟩ 182)).isEmpty
            then [Event.note "No snapshots to remove"]
            else (filter_older_snaps
                (listedSnaps ⟨fun _ => true, fun _ => "tank/data@2026-02-01\ntank/data@2025-01-10"⟩
                  "tank/data")
                (get_cutoff_date ⟨2026, 2, 16⟩ 182)).map
              (fun p => Event.real (ZFS_DESTROY ++ [p.2])))) ∧
    snapName "tank/data" ⟨2026, 2, 16⟩ ∉
      (filter_older_snaps
        (listedSnaps ⟨fun _ => true, fun _ => "tank/data@2026-02-01\ntank/data@2025-01-10"⟩
          "tank/data")
        (get_cutoff_date ⟨2026, 2, 16⟩ 182)).map Prod.snd :=
  claim_pipeline_order _ ⟨2026, 2, 16⟩ 182 "tank/data" (fun _ => rfl) (by decide) (by decide)
